import Mathlib

/-!
Verification of the weather-api repository (React client `app.js` plus the
Node relay server in the same source file) against its natural-language
specification.  JavaScript values are shallowly embedded: strings become
`String` or `List Char`, JavaScript numbers become `ℚ` (exact rational
arithmetic; float rounding artifacts are out of scope), objects become
structures with `Option` fields for possibly-absent properties, and the
stateful React component becomes explicit state passing over an `AppState`
record driven by an `Event` step function.
-/

namespace WeatherApp

/-- Model of the short-circuiting JavaScript `a || b` on strings: the empty
string is the only falsy string value. -/
def jsOr (a b : String) : String := if a = "" then b else a

/-- Model of JavaScript `String.prototype.trim` on character lists: drop
leading whitespace, then trailing whitespace.  The JavaScript whitespace
class is modelled by `Char.isWhitespace`. -/
def jsTrim (cs : List Char) : List Char :=
  ((cs.dropWhile Char.isWhitespace).reverse.dropWhile Char.isWhitespace).reverse

/-- The `trim` model lifted to `String`. -/
def strTrim (s : String) : String := String.mk (jsTrim s.data)

/-- The fixed `WEATHER_CODE_MAP` lookup table from `app.js` (lines 3-32),
embedded as an association list in source order. -/
def weatherCodeMap : List (Int × String) :=
  [(0, "Clear sky"), (1, "Mainly clear"), (2, "Partly cloudy"), (3, "Overcast"),
   (45, "Fog"), (48, "Depositing rime fog"),
   (51, "Light drizzle"), (53, "Moderate drizzle"), (55, "Dense drizzle"),
   (56, "Light freezing drizzle"), (57, "Dense freezing drizzle"),
   (61, "Slight rain"), (63, "Moderate rain"), (65, "Heavy rain"),
   (66, "Light freezing rain"), (67, "Heavy freezing rain"),
   (71, "Slight snowfall"), (73, "Moderate snowfall"), (75, "Heavy snowfall"),
   (77, "Snow grains"),
   (80, "Slight rain showers"), (81, "Moderate rain showers"), (82, "Violent rain showers"),
   (85, "Slight snow showers"), (86, "Heavy snow showers"),
   (95, "Thunderstorm"), (96, "Thunderstorm with light hail"),
   (99, "Thunderstorm with heavy hail")]

/-- Model of `WEATHER_CODE_MAP[code] || "Variable conditions"` (`app.js`
line 131): an absent key is `undefined` (falsy), and the `||` fallback also
fires on an empty mapped string. -/
def summaryFor (code : Int) : String :=
  match weatherCodeMap.lookup code with
  | some v => if v = "" then "Variable conditions" else v
  | none => "Variable conditions"

/-- Model of JavaScript `Math.round`: round half toward positive infinity,
which is `⌊q + 1/2⌋`. -/
def jsRound (q : ℚ) : Int := ⌊q + 1 / 2⌋

/-- The compass-direction array from `toCardinal` (`app.js` line 56). -/
def cardinalDirections : List String := ["N", "NE", "E", "SE", "S", "SW", "W", "NW"]

/-- Model of `toCardinal` (`app.js` lines 54-59) on numeric input.
JavaScript `%` is the truncated remainder (sign of the dividend), modelled by
`Int.tmod`; an out-of-bounds (negative) array index yields `undefined`,
modelled as `none`.  The non-number guard returning `"--"` is outside the
numeric domain modelled here. -/
def toCardinal (degree : ℚ) : Option String :=
  let index := Int.tmod (jsRound (degree / 45)) 8
  if index < 0 then none else cardinalDirections.get? index.toNat

/-! ### AdviceParser (`adviceItems`, `app.js` lines 294-312)

The three regular expressions are embedded directly, with JavaScript
backtracking semantics spelled out:
* `/^[-*]\s*(...)/` bullet stripping (`stripBullet`);
* `/^\*\*(.+?)\*\*:\s*(.+)$/` with a lazy first group (`boldMatch`);
* `/^([^:]+):\s*(.+)$/` (`colonMatch`).
-/

/-- One parsed advice row: `{label, text}` from one input line. -/
structure AdviceItem where
  label : List Char
  text : List Char
deriving DecidableEq, Repr

/-- Model of the regex tail `\s*(.+)$` applied to `rest`: the greedy `\s*`
takes the maximal whitespace run, then `(.+)` needs a nonempty remainder; if
`rest` is nonempty but all whitespace, the engine backtracks one character so
`(.+)` captures the final whitespace character. -/
def matchSpaceText (rest : List Char) : Option (List Char) :=
  match rest.dropWhile Char.isWhitespace, rest.getLast? with
  | [], none => none
  | [], some c => some [c]
  | c :: cs, _ => some (c :: cs)

/-- Model of `/^([^:]+):\s*(.+)$/`: the label is the (nonempty) run before
the first colon, then `\s*(.+)$` on what follows the colon. -/
def colonMatch (cs : List Char) : Option (List Char × List Char) :=
  match cs.takeWhile (fun c => c ≠ ':'), cs.dropWhile (fun c => c ≠ ':') with
  | _, [] => none
  | [], _ => none
  | lab, _ :: aft => (matchSpaceText aft).map (fun text => (lab, text))

/-- Scanner for the lazy group of `/^\*\*(.+?)\*\*:\s*(.+)$/`: after the
opening `**`, consume label characters one at a time (shortest first); at
each nonempty label, if the remainder starts with `**:` and the tail matches
`\s*(.+)$`, succeed; otherwise keep extending the label (backtracking). -/
def boldAux : List Char → List Char → Option (List Char × List Char)
  | _, [] => none
  | acc, c :: rest =>
    match rest with
    | '*' :: '*' :: ':' :: aft =>
      match matchSpaceText aft with
      | some text => some ((c :: acc).reverse, text)
      | none => boldAux (c :: acc) rest
    | _ => boldAux (c :: acc) rest

/-- Model of `/^\*\*(.+?)\*\*:\s*(.+)$/`: requires a literal `**` at the
start, then the lazy scan `boldAux`. -/
def boldMatch : List Char → Option (List Char × List Char)
  | '*' :: '*' :: rest => boldAux [] rest
  | _ => none

/-- Model of `line.replace(/^[-*]\s*/, "")` (`app.js` line 300): remove one
leading `-` or `*` together with the whitespace that follows it. -/
def stripBullet : List Char → List Char
  | [] => []
  | c :: rest => if c = '-' ∨ c = '*' then rest.dropWhile Char.isWhitespace else c :: rest

/-- Model of `String.prototype.split("\n")`: `""` splits to `[""]`, and each
separator produces a boundary (so `"a\n"` splits to `["a", ""]`). -/
def splitOnNl : List Char → List (List Char)
  | [] => [[]]
  | c :: rest =>
    if c = '\n' then [] :: splitOnNl rest
    else
      match splitOnNl rest with
      | [] => [[c]]
      | h :: t => (c :: h) :: t

/-- Model of `Array.prototype.join("\n")`. -/
def joinNl : List (List Char) → List Char
  | [] => []
  | [l] => l
  | l :: l2 :: rest => l ++ '\n' :: joinNl (l2 :: rest)

/-- Per-line classification of `adviceItems`: try the bold pattern, then the
bare-colon pattern, then fall back to an unlabeled item. -/
def parseLine (line : List Char) : AdviceItem :=
  match boldMatch line with
  | some lt => ⟨lt.1, lt.2⟩
  | none =>
    match colonMatch line with
    | some lt => ⟨lt.1, lt.2⟩
    | none => ⟨[], line⟩

/-- The split / trim / drop-empty prefix of the `adviceItems` pipeline
(`.split("\n").map(trim).filter(Boolean)`). -/
def nonEmptyTrimmedLines (cs : List Char) : List (List Char) :=
  ((splitOnNl cs).map jsTrim).filter (fun l => l ≠ [])

/-- Model of the `adviceItems` memo (`app.js` lines 294-312): the falsy guard
`if (!advice) return []`, then split, trim, drop empty lines, strip bullets,
and classify each remaining line. -/
def adviceItems (advice : List Char) : List AdviceItem :=
  if advice = [] then []
  else ((nonEmptyTrimmedLines advice).map stripBullet).map parseLine

/-- Reconstruction of one item as `label + ": " + text` (the rendering named
by the idempotence property in the specification). -/
def renderItem (it : AdviceItem) : List Char := it.label ++ ':' :: ' ' :: it.text

/-- Reconstruction of a parsed item sequence, one item per line. -/
def reconstruct (items : List AdviceItem) : List Char := joinNl (items.map renderItem)

/-- Whether a (stripped) line matches pattern (a) (`boldMatch`) or pattern
(b) (`colonMatch`). -/
def matchedAB (line : List Char) : Bool :=
  (boldMatch line).isSome || (colonMatch line).isSome

/-- The label condition under which re-parsing the reconstruction is proved
to be the identity: the label is nonempty (equivalently, the line matched
pattern (a) or (b)), contains no colon, and starts with a character that is
not whitespace and not a bullet character. -/
def goodLabel (l : List Char) : Bool :=
  match l with
  | [] => false
  | c :: _ => !c.isWhitespace && !(c = '-') && !(c = '*') && !(':' ∈ l)

/-! ### Numeric string parsing (`parseCoord`, `app.js` lines 68-71) -/

/-- Decimal digit run to a natural number. -/
def digitsToNat (ds : List Char) : Nat :=
  ds.foldl (fun n c => 10 * n + (c.toNat - '0'.toNat)) 0

/-- Unsigned decimal mantissa of a JavaScript numeric literal: `digits`,
`digits.`, `digits.digits` or `.digits`. -/
def parseDecCore (cs : List Char) : Option ℚ :=
  let ds := cs.takeWhile Char.isDigit
  let rest := cs.dropWhile Char.isDigit
  match rest with
  | [] => if ds = [] then none else some (digitsToNat ds)
  | '.' :: frac =>
    let fs := frac.takeWhile Char.isDigit
    let rest2 := frac.dropWhile Char.isDigit
    if rest2 ≠ [] then none
    else if ds = [] ∧ fs = [] then none
    else some ((digitsToNat ds : ℚ) + (digitsToNat fs : ℚ) / (10 : ℚ) ^ fs.length)
  | _ => none

/-- Optional leading sign in front of a numeric sub-literal. -/
def parseSigned (p : List Char → Option ℚ) : List Char → Option ℚ
  | '+' :: rest => p rest
  | '-' :: rest => (p rest).map (fun q => -q)
  | cs => p cs

/-- Nonempty all-digit run (used for the exponent). -/
def parseDigitsOnly (cs : List Char) : Option ℚ :=
  if cs ≠ [] ∧ cs.all Char.isDigit then some (digitsToNat cs) else none

/-- Model of `Number(value)` restricted to finite results, as consumed by
`parseCoord`: the input is trimmed; the empty string evaluates to `0`;
otherwise an optional-sign decimal literal with optional fraction and
optional exponent.  Hexadecimal/binary/octal forms and `Infinity` (the
latter rejected by the `Number.isFinite` guard anyway) are outside the
modelled grammar and map to `none`, as does NaN. -/
def jsNumberFinite (s : String) : Option ℚ :=
  let t := jsTrim s.data
  if t = [] then some 0
  else
    parseSigned
      (fun body =>
        let mant := body.takeWhile (fun c => !(c = 'e') && !(c = 'E'))
        let rest := body.dropWhile (fun c => !(c = 'e') && !(c = 'E'))
        match rest with
        | [] => parseDecCore mant
        | _ :: expPart =>
          match parseDecCore mant, parseSigned parseDigitsOnly expPart with
          | some m, some e10 => some (m * (10 : ℚ) ^ ⌊e10⌋)
          | _, _ => none)
      t

/-- Model of `parseCoord` (`app.js` lines 68-71): `Number(value)` followed by
the `Number.isFinite` guard, `null` modelled as `none`. -/
def parseCoord (value : String) : Option ℚ := jsNumberFinite value

/-! ### Display formatting (`formatNumber`, `app.js` lines 61-66) -/

/-- Left-pad a digit string with zeros to the given width. -/
def padZeros (s : String) (width : Nat) : String :=
  String.mk (List.replicate (width - s.length) '0') ++ s

/-- Decimal rendering of `Number.prototype.toFixed(digits)` on an exact
rational: round half away from zero at the last kept digit and print with
exactly `digits` fraction digits (binary-float rounding artifacts are out of
scope of the rational model). -/
def toFixed (q : ℚ) (digits : Nat) : String :=
  let p : ℚ := (10 : ℚ) ^ digits
  let scaled : Int := if 0 ≤ q then ⌊q * p + 1 / 2⌋ else -⌊-q * p + 1 / 2⌋
  let a := scaled.natAbs
  let pw := 10 ^ digits
  let sign := if scaled < 0 then "-" else ""
  if digits = 0 then sign ++ toString (a / pw)
  else sign ++ toString (a / pw) ++ "." ++ padZeros (toString (a % pw)) digits

/-- Model of `formatNumber`: `null`/`undefined`/NaN render as `"--"`,
otherwise `toFixed`. -/
def formatNumber (value : Option ℚ) (digits : Nat) : String :=
  match value with
  | none => "--"
  | some q => toFixed q digits

/-! ### PipelineController state (`App`, `app.js` lines 73-287)

The React component's `useState` cells become the fields of `AppState`; the
asynchronous `fetchWeather` is split into its synchronous prefix
(`fetchWeatherStart`, through line 120, which also issues the forecast
request) and its continuation on the response (`applyForecastResult`,
lines 122-160).  The in-flight request's closure (its parameters and
location label) is kept in `pendingFetch`. -/

/-- The two selectable unit systems. -/
inductive UnitSystem
  | fahrenheit
  | celsius
deriving DecidableEq, Repr

/-- Status values used by the weather / advice / city-search flows. -/
inductive Status
  | idle
  | locating
  | loading
  | ready
  | error
deriving DecidableEq, Repr

/-- A resolved coordinate pair (`setCoords({ lat, lon })`, line 134). -/
structure Coords where
  lat : ℚ
  lon : ℚ
deriving DecidableEq, Repr

/-- The `current_units` object of a forecast response. -/
structure CurrentUnits where
  temperature_2m : String
  apparent_temperature : String
  relative_humidity_2m : String
  wind_speed_10m : String
deriving DecidableEq, Repr

/-- The `current` object of a forecast response. -/
structure CurrentData where
  temperature_2m : ℚ
  apparent_temperature : ℚ
  relative_humidity_2m : ℚ
  weather_code : Int
  wind_speed_10m : ℚ
  wind_direction_10m : ℚ
  time : String
deriving DecidableEq, Repr

/-- A parsed forecast response body; `current` is absent when the payload
lacks current conditions (line 127). -/
structure ForecastData where
  current : Option CurrentData
  current_units : CurrentUnits
  timezone : String
deriving DecidableEq, Repr

/-- The stored weather snapshot
(`setWeather({ ...data.current, units: data.current_units, timezone })`). -/
structure WeatherSnapshot where
  current : CurrentData
  units : CurrentUnits
  timezone : String
deriving DecidableEq, Repr

/-- The query parameters of one forecast request (lines 108-120). -/
structure ForecastRequest where
  latitude : ℚ
  longitude : ℚ
  currentParam : String
  timezoneParam : String
  temperatureUnit : String
  windSpeedUnit : String
deriving DecidableEq, Repr

/-- The component state (`useState` cells, lines 74-87), plus `pendingFetch`
for the in-flight forecast call's closure. -/
structure AppState where
  status : Status
  error : String
  coords : Option Coords
  locationName : String
  weather : Option WeatherSnapshot
  advice : String
  adviceStatus : Status
  adviceError : String
  unit : UnitSystem
  cityQuery : String
  cityStatus : Status
  cityError : String
  manualLat : String
  manualLon : String
  pendingFetch : Option (ForecastRequest × String)
deriving DecidableEq, Repr

/-- The initial component state (the `useState` initial values). -/
def initState : AppState :=
  { status := .idle, error := "", coords := none, locationName := "", weather := none,
    advice := "", adviceStatus := .idle, adviceError := "", unit := .fahrenheit,
    cityQuery := "", cityStatus := .idle, cityError := "", manualLat := "", manualLon := "",
    pendingFetch := none }

/-- `unit === "fahrenheit" ? "fahrenheit" : "celsius"` (line 118). -/
def unitTokenTemp (u : UnitSystem) : String :=
  if u = .fahrenheit then "fahrenheit" else "celsius"

/-- `unit === "fahrenheit" ? "mph" : "kmh"` (line 120). -/
def unitTokenWind (u : UnitSystem) : String :=
  if u = .fahrenheit then "mph" else "kmh"

/-- The forecast request constructed by `fetchWeather` (lines 108-120). -/
def buildForecastRequest (latitude longitude : ℚ) (unitOverride : UnitSystem) : ForecastRequest :=
  { latitude := latitude, longitude := longitude,
    currentParam :=
      "temperature_2m,apparent_temperature,relative_humidity_2m,weather_code,wind_speed_10m,wind_direction_10m",
    timezoneParam := "auto",
    temperatureUnit := unitTokenTemp unitOverride,
    windSpeedUnit := unitTokenWind unitOverride }

/-- The synchronous prefix of `fetchWeather` (lines 100-120): set the weather
flow to loading, clear the weather error, clear the advice flow back to idle,
clear the city-search error, then issue the forecast request. -/
def fetchWeatherStart (s : AppState) (latitude longitude : ℚ) (unitOverride : UnitSystem)
    (locationLabel : String) : AppState × Option ForecastRequest :=
  let req := buildForecastRequest latitude longitude unitOverride
  ({ s with status := .loading, error := "", advice := "", adviceError := "",
            adviceStatus := .idle, cityError := "",
            pendingFetch := some (req, locationLabel) }, some req)

/-- The continuation of `fetchWeather` on the forecast response
(lines 122-160): non-2xx and missing `current` become weather errors; on
success the coordinates, location label and snapshot are replaced wholesale
from the request parameters and response data, and the advice flow is
started (`fetchAdvice`'s synchronous prefix, lines 164-165).  The `catch` of
other failure modes (network error, malformed JSON) is not modelled. -/
def applyForecastResult (s : AppState) (req : ForecastRequest) (locationLabel : String)
    (ok : Bool) (httpStatus : Nat) (d : ForecastData) : AppState :=
  let s0 := { s with pendingFetch := none }
  if ok = false then
    { s0 with status := .error, error := "Weather service error (" ++ toString httpStatus ++ ")" }
  else
    match d.current with
    | none => { s0 with status := .error, error := "Weather data unavailable." }
    | some cur =>
      let resolvedLocation :=
        jsOr locationLabel (toFixed req.latitude 4 ++ ", " ++ toFixed req.longitude 4)
      { s0 with
        coords := some ⟨req.latitude, req.longitude⟩,
        locationName := resolvedLocation,
        weather := some ⟨cur, d.current_units, d.timezone⟩,
        status := .ready,
        adviceStatus := .loading,
        adviceError := "" }

/-- The `error`/`suggestion` fields of a parsed advice-relay response body. -/
structure AdviceJson where
  error : Option String
  suggestion : Option String
deriving DecidableEq, Repr

/-- One advice-relay HTTP response as observed by `fetchAdvice`:
`contentTypeJson` models `contentType.includes("application/json")` and
`parsed` the outcome of `JSON.parse(rawText)` (`none` = the parse threw). -/
structure AdviceHttpResponse where
  ok : Bool
  contentTypeJson : Bool
  rawText : String
  parsed : Option AdviceJson
deriving DecidableEq, Repr

/-- The `data` object computed by `fetchAdvice` (lines 172-181): `{}` unless
the response declares JSON, the body is nonempty, and it parses. -/
def adviceData (r : AdviceHttpResponse) : AdviceJson :=
  if r.contentTypeJson then
    if r.rawText = "" then ⟨none, none⟩
    else
      match r.parsed with
      | some d => d
      | none => ⟨none, none⟩
  else ⟨none, none⟩

/-- The continuation of `fetchAdvice` on the response (lines 182-194):
non-2xx throws `data.error || rawText || fallback`, caught as the advice
error; 2xx stores `data.suggestion || rawText || ""` and marks the advice
flow ready.  (An absent field behaves like `""` under `||`.) -/
def handleAdviceResponse (s : AppState) (r : AdviceHttpResponse) : AppState :=
  let d := adviceData r
  if r.ok then
    { s with advice := jsOr (jsOr (d.suggestion.getD "") r.rawText) "",
             adviceStatus := .ready }
  else
    { s with adviceStatus := .error,
             adviceError := jsOr (jsOr (d.error.getD "") r.rawText)
               "Unable to generate suggestions. Make sure `node server.js` is running." }

/-- `unit === "fahrenheit" ? "celsius" : "fahrenheit"` (line 276). -/
def toggleUnit : UnitSystem → UnitSystem
  | .fahrenheit => .celsius
  | .celsius => .fahrenheit

/-- Model of `handleUnitToggle` (lines 275-281): flip the unit; if a location
is already resolved, re-run `fetchWeather` with the new unit and the same
coordinates and label. -/
def handleUnitToggle (s : AppState) : AppState × Option ForecastRequest :=
  let next := toggleUnit s.unit
  let s1 := { s with unit := next }
  match s.coords with
  | some c => fetchWeatherStart s1 c.lat c.lon next s.locationName
  | none => (s1, none)

/-- Model of `handleManualSubmit` (lines 227-238) with the two field values:
invalid input sets an error without any network call, otherwise
`fetchWeather` runs with the parsed values, the current unit and no label. -/
def handleManualSubmit (s : AppState) (latS lonS : String) : AppState × Option ForecastRequest :=
  let s1 := { s with manualLat := latS, manualLon := lonS }
  match parseCoord latS, parseCoord lonS with
  | some la, some lo => fetchWeatherStart s1 la lo s1.unit ""
  | _, _ => ({ s1 with status := .error, error := "Enter a valid latitude and longitude." }, none)

/-- `[result.name, result.admin1, result.country].filter(Boolean).join(", ")`
(line 265); an absent field is modelled as `""` (falsy either way). -/
def joinCityLabel (name admin1 country : String) : String :=
  String.intercalate ", " ([name, admin1, country].filter (fun x => x ≠ ""))

/-- The location / pipeline events driving the component, each corresponding
to one synchronous handler run or one asynchronous continuation. -/
inductive Event where
  | locate
  | geoSuccess (latitude longitude : ℚ)
  | geoFailure (permissionDenied : Bool)
  | manualSubmit (latS lonS : String)
  | cityInput (q : String)
  | citySubmit
  | cityDoneOk (name admin1 country : String) (latitude longitude : ℚ)
  | cityDoneErr (message : String)
  | unitToggle
  | forecastDone (ok : Bool) (httpStatus : Nat) (d : ForecastData)
  | adviceDone (r : AdviceHttpResponse)

/-- One step of the pipeline state machine; the second component is the
forecast request issued during the step, if any.  `forecastDone` resumes the
pending fetch (out-of-order completions of superseded requests are not
modelled; the pending slot always holds the latest request).  `cityDoneErr`
covers the three throw sites of `handleCitySubmit` via their messages. -/
def step (s : AppState) (e : Event) : AppState × Option ForecastRequest :=
  match e with
  | .locate => ({ s with status := .locating, error := "" }, none)
  | .geoSuccess la lo => fetchWeatherStart s la lo s.unit "Current location"
  | .geoFailure pd =>
    ({ s with status := .error,
              error := if pd then "Location access was blocked. Try the manual coordinates below."
                       else "Unable to retrieve your location. Try again or enter coordinates." },
     none)
  | .manualSubmit laS loS => handleManualSubmit s laS loS
  | .cityInput q => ({ s with cityQuery := q, cityStatus := .idle, cityError := "" }, none)
  | .citySubmit =>
    if strTrim s.cityQuery = "" then
      ({ s with cityStatus := .error, cityError := "Enter a city name." }, none)
    else ({ s with cityStatus := .loading, cityError := "" }, none)
  | .cityDoneOk name admin1 country la lo =>
    let label := joinCityLabel name admin1 country
    let s1 := { s with cityQuery := label, cityStatus := .ready }
    fetchWeatherStart s1 la lo s1.unit label
  | .cityDoneErr msg =>
    ({ s with cityStatus := .error, cityError := jsOr msg "Unable to find that city." }, none)
  | .unitToggle => handleUnitToggle s
  | .forecastDone ok httpStatus d =>
    match s.pendingFetch with
    | some rl => (applyForecastResult s rl.1 rl.2 ok httpStatus d, none)
    | none => (s, none)
  | .adviceDone r => (handleAdviceResponse s r, none)

/-- Run a sequence of events from the initial state. -/
def runEvents (events : List Event) : AppState :=
  events.foldl (fun s e => (step s e).1) initState

/-! ### RelayService (the Node server half of the source) -/

/-- One content part of an upstream output item. -/
structure ContentPart where
  type : String
  text : Option String
deriving DecidableEq, Repr

/-- One entry of the upstream response's `output` array. -/
structure OutputItem where
  type : String
  content : Option (List (Option ContentPart))
  text : Option String
deriving DecidableEq, Repr

/-- The upstream provider's response envelope as read by
`extractOutputText`: `output_text` is present exactly when it is a string,
`output` exactly when it is an array; array entries may be null. -/
structure OAIResponse where
  output_text : Option String
  output : Option (List (Option OutputItem))
deriving DecidableEq, Repr

/-- Concatenation of a list of strings (for the specification-side
extraction definitions). -/
def concatStrings : List String → String
  | [] => ""
  | s :: rest => s ++ concatStrings rest

/-- One content part's contribution in `extractOutputText` (inner `forEach`,
lines 641-647): null parts are skipped; a part of type `output_text` or
`text` contributes `part.text || ""`. -/
def partText (p : Option ContentPart) : String :=
  match p with
  | none => ""
  | some part =>
    if part.type = "output_text" ∨ part.type = "text" then part.text.getD "" else ""

/-- One output item's contribution (outer `forEach`, lines 638-651): null
items are skipped; a `message` item with an array `content` contributes its
parts' text in order; an `output_text` item with a text field contributes
that text (the JavaScript truthiness test on `item.text` skips `""`, which
contributes nothing either way).  Both `if` statements run for every item. -/
def itemText (it : Option OutputItem) : String :=
  match it with
  | none => ""
  | some item =>
    (if item.type = "message" then
      match item.content with
      | some parts => parts.foldl (fun a p => a ++ partText p) ""
      | none => ""
     else "") ++
    (if item.type = "output_text" then
      match item.text with
      | some t => t
      | none => ""
     else "")

/-- Model of `extractOutputText` (lines 631-653): a null response gives `""`;
a string `output_text` is returned as-is; otherwise the `output` array is
accumulated item by item and the accumulated text is trimmed. -/
def extractOutputText (r : Option OAIResponse) : String :=
  match r with
  | none => ""
  | some resp =>
    match resp.output_text with
    | some s => s
    | none =>
      match resp.output with
      | none => ""
      | some items => strTrim (items.foldl (fun acc it => acc ++ itemText it) "")

/-- The extraction rule exactly as claim C8 states it: prefer the flattened
text field; otherwise concatenate, in output-list order, the text fragments
of text-bearing content parts taken only from message-type output items
(no other item kinds, no trimming). -/
def extractOutputTextClaimed (resp : OAIResponse) : String :=
  match resp.output_text with
  | some s => s
  | none =>
    match resp.output with
    | none => ""
    | some items =>
      concatStrings (items.map (fun it =>
        match it with
        | none => ""
        | some item =>
          if item.type = "message" then concatStrings ((item.content.getD []).map partText)
          else ""))

/-- The amended extraction rule: as claim C8, but the concatenation branch
additionally includes the text of top-level `output_text` items and its
result is trimmed. -/
def extractOutputTextAmended (r : Option OAIResponse) : String :=
  match r with
  | none => ""
  | some resp =>
    match resp.output_text with
    | some s => s
    | none =>
      match resp.output with
      | none => ""
      | some items => strTrim (concatStrings (items.map itemText))

/-- The relay's process environment, restricted to the two credential
variables read by `getApiKey`. -/
structure RelayEnv where
  openAiKeyVar : Option String
  openaiApiKeyVar : Option String
deriving DecidableEq, Repr

/-- Model of `getApiKey` (`process.env.OPEN_AI_KEY || process.env.OPENAI_API_KEY`,
line 565): an unset variable is `undefined`; an empty-string value is falsy,
and since the caller immediately tests `if (!apiKey)`, an overall falsy
result is collapsed to `none`. -/
def getApiKey (env : RelayEnv) : Option String :=
  let second :=
    match env.openaiApiKeyVar with
    | some k => if k = "" then none else some k
    | none => none
  match env.openAiKeyVar with
  | some k => if k = "" then second else some k
  | none => second

/-- The weather object expected by the relay's prompt builder. -/
structure WeatherBody where
  summary : String
  temperature : String
  feelsLike : String
  humidity : String
  windSpeed : String
  windDirection : String
  temperatureUnit : String
  windUnit : String
  time : String
  timezone : String
  location : String
deriving DecidableEq, Repr

/-- Model of `buildPrompt` (lines 655-670). -/
def buildPrompt (w : WeatherBody) : String :=
  String.intercalate "\n"
    ["Weather details:",
     "Summary: " ++ w.summary,
     "Temperature: " ++ w.temperature ++ " " ++ w.temperatureUnit,
     "Feels like: " ++ w.feelsLike ++ " " ++ w.temperatureUnit,
     "Humidity: " ++ w.humidity ++ "%",
     "Wind: " ++ w.windSpeed ++ " " ++ w.windUnit ++ " " ++ w.windDirection,
     "Location: " ++ w.location,
     "Local time: " ++ w.time ++ " (" ++ w.timezone ++ ")"]

/-- Outcome of the upstream HTTPS request made by `callOpenAI`: a transport
error, or an HTTP response with its status, raw body and the outcome of
`JSON.parse` on the body (`Except.error` = the parse threw with that
message; a parsed `null` body is `Except.ok none`). -/
inductive UpstreamResult where
  | transportError (message : String)
  | httpResponse (statusCode : Nat) (bodyText : String)
      (parsedBody : Except String (Option OAIResponse))

/-- Model of `callOpenAI` (lines 588-629): reject immediately when no API
credential is configured, before any upstream request; otherwise reject on
transport error, reject with status and body on an upstream status of 400 or
more, and otherwise settle like `JSON.parse` on the body. -/
def callOpenAI (env : RelayEnv) (upstream : UpstreamResult) :
    Except String (Option OAIResponse) :=
  match getApiKey env with
  | none => .error "OPEN_AI_KEY is missing in .env"
  | some _ =>
    match upstream with
    | .transportError msg => .error msg
    | .httpResponse statusCode bodyText parsedBody =>
      if 400 ≤ statusCode then
        .error ("OpenAI error (" ++ toString statusCode ++ "): " ++ bodyText)
      else parsedBody

/-- A parsed `/api/suggest` request body (`{weather: ...}`). -/
structure SuggestBody where
  weather : Option WeatherBody
deriving DecidableEq, Repr

/-- Outcome of `parseJsonBody` on the request: the body failed to parse
(rejects, caught by the route's `catch`), or parsed to `null`-or-an-object
(`none` covers the falsy `!body` case; an empty request body resolves to
`{}`, i.e. `some ⟨none⟩`). -/
inductive BodyParse where
  | failed (message : String)
  | parsed (body : Option SuggestBody)

/-- A JSON response body sent by the relay's suggest route. -/
inductive RelayJson where
  | errorBody (error : String)
  | suggestionBody (suggestion : String)
deriving DecidableEq, Repr

/-- Model of the `POST /api/suggest` route (lines 700-728): status code and
JSON body as a function of the parsed request body and the upstream
outcome.  Any rejection inside the `try` lands in the `catch`, which sends
status 500 with `err.message || "Server error."`. -/
def handleSuggest (env : RelayEnv) (bodyOutcome : BodyParse) (upstream : UpstreamResult) :
    Nat × RelayJson :=
  match bodyOutcome with
  | .failed msg => (500, .errorBody (jsOr msg "Server error."))
  | .parsed none => (400, .errorBody "Missing weather details.")
  | .parsed (some b) =>
    match b.weather with
    | none => (400, .errorBody "Missing weather details.")
    | some w =>
      let _prompt := buildPrompt w
      match callOpenAI env upstream with
      | .error e => (500, .errorBody (jsOr e "Server error."))
      | .ok resp =>
        let suggestion := extractOutputText resp
        if suggestion = "" then (500, .errorBody "No suggestion returned.")
        else (200, .suggestionBody suggestion)

/-! ### Concrete sample data used by witnesses and counterexamples -/

/-- A fully populated weather object for relay requests. -/
def sampleWeatherBody : WeatherBody :=
  { summary := "Clear sky", temperature := "70.0", feelsLike := "68.0", humidity := "40",
    windSpeed := "5.0", windDirection := "N", temperatureUnit := "°F", windUnit := "mp/h",
    time := "2026-01-01T12:00", timezone := "America/Los_Angeles", location := "Test" }

/-- A successful forecast payload with current conditions present. -/
def sampleForecast : ForecastData :=
  { current := some
      { temperature_2m := 70, apparent_temperature := 68, relative_humidity_2m := 40,
        weather_code := 0, wind_speed_10m := 5, wind_direction_10m := 90,
        time := "2026-01-01T12:00" },
    current_units := { temperature_2m := "°F", apparent_temperature := "°F",
                       relative_humidity_2m := "%", wind_speed_10m := "mp/h" },
    timezone := "America/Los_Angeles" }

/-- A state with a resolved location, for exercising the unit toggle. -/
def unitToggleSample : AppState := { initState with coords := some ⟨45, 90⟩ }

/-- A successful advice-relay response whose parsed suggestion field is the
empty string while the raw body text is nonempty. -/
def c6Resp : AdviceHttpResponse :=
  { ok := true, contentTypeJson := true, rawText := "raw body",
    parsed := some { error := none, suggestion := some "" } }

/-- An upstream response with no flattened text field whose single output
item is a top-level `output_text` item (not a message item). -/
def c8Resp : OAIResponse :=
  { output_text := none,
    output := some [some { type := "output_text", content := none, text := some "hi" }] }

/-- The coordinate ranges named by the data model: latitude in [-90, 90] and
longitude in [-180, 180]. -/
def latLonInRange (la lo : ℚ) : Prop :=
  -90 ≤ la ∧ la ≤ 90 ∧ -180 ≤ lo ∧ lo ≤ 180

instance (la lo : ℚ) : Decidable (latLonInRange la lo) := by
  unfold latLonInRange; infer_instance

/-- An event supplies only in-range coordinates: geolocation payloads,
city-search results, and manual entries (as parsed by `parseCoord`) are in
range; all other events carry no coordinates. -/
def eventInRange : Event → Prop
  | .geoSuccess la lo => latLonInRange la lo
  | .manualSubmit laS loS =>
    ∀ la lo, parseCoord laS = some la → parseCoord loS = some lo → latLonInRange la lo
  | .cityDoneOk _ _ _ la lo => latLonInRange la lo
  | _ => True

/-- The range invariant over a pipeline state: resolved coordinates and the
pending request's coordinates are in range. -/
def stateCoordsInRange (s : AppState) : Prop :=
  (∀ c, s.coords = some c → latLonInRange c.lat c.lon) ∧
  (∀ rl, s.pendingFetch = some rl → latLonInRange rl.1.latitude rl.1.longitude)

/-- An in-range manual submit followed by a successful forecast. -/
def c9GoodEvents : List Event :=
  [.manualSubmit "45" "90", .forecastDone true 200 sampleForecast]

/-- An out-of-range manual submit followed by a successful forecast. -/
def c9BadEvents : List Event :=
  [.manualSubmit "1000" "0", .forecastDone true 200 sampleForecast]

/-- A bulleted bold line whose (lazily matched) label contains a colon. -/
def c3BadInput : List Char := "-**A:B**: c".toList

/-- A two-line advice text whose labels are colon-free and bullet-free. -/
def c3GoodInput : List Char :=
  "- **Base Layer**: thermal shirt\nAccessories: wool hat".toList

/-! ## Helper lemmas -/

/-- A value found by association-list lookup is one of the stored values. -/
theorem lookup_val_mem {α β : Type} [BEq α] (l : List (α × β)) (k : α) (v : β)
    (h : l.lookup k = some v) : v ∈ l.map Prod.snd := by
  induction l with
  | nil => simp [List.lookup] at h
  | cons p rest ih =>
    obtain ⟨a, b⟩ := p
    rw [List.lookup] at h
    split at h
    · simp only [Option.some.injEq] at h
      simp [h]
    · simp only [List.map_cons, List.mem_cons]
      exact Or.inr (ih h)

/-- Unfolding of `toCardinal`. -/
theorem toCardinal_def (degree : ℚ) :
    toCardinal degree =
      if Int.tmod (jsRound (degree / 45)) 8 < 0 then none
      else cardinalDirections.get? (Int.tmod (jsRound (degree / 45)) 8).toNat := rfl

/-! ## Claim C1 -/

/-- Claim C1 (amended): for every weather code present in the fixed lookup
table the summary function returns the exact mapped string, and for every
code outside the table it returns "Variable conditions"; in particular the
out-of-table codes 4 and 999 map to the fallback.  (The claim's example
"2" is in the table; see the counterexample.) -/
theorem summaryFor_table_and_fallback :
    (∀ code v, weatherCodeMap.lookup code = some v → summaryFor code = v) ∧
    (∀ code, weatherCodeMap.lookup code = none → summaryFor code = "Variable conditions") ∧
    summaryFor 4 = "Variable conditions" ∧ summaryFor 999 = "Variable conditions" := by
  refine ⟨?_, ?_, by decide, by decide⟩
  · intro code v h
    have hv : v ∈ weatherCodeMap.map Prod.snd := lookup_val_mem _ _ _ h
    have hne : v ≠ "" := by
      have hall : ∀ x ∈ weatherCodeMap.map Prod.snd, x ≠ "" := by decide
      exact hall v hv
    simp [summaryFor, h, hne]
  · intro code h
    simp [summaryFor, h]

/-- Witness for C1 at code 0. -/
theorem summaryFor_table_and_fallback_witness :
    weatherCodeMap.lookup 0 = some "Clear sky" ∧ summaryFor 0 = "Clear sky" :=
  ⟨by decide, summaryFor_table_and_fallback.1 0 "Clear sky" (by decide)⟩

/-- Counterexample to C1 as stated: code 2 is not outside the table — it is
mapped, to "Partly cloudy", so `summaryFor 2` is not the fallback. -/
theorem summaryFor_code2_counterexample :
    weatherCodeMap.lookup 2 = some "Partly cloudy" ∧
    summaryFor 2 = "Partly cloudy" ∧ summaryFor 2 ≠ "Variable conditions" := by
  refine ⟨by decide, by decide, by decide⟩

/-! ## Claim C2 -/

/-- Claim C2 (amended): `toCardinal` is invariant under adding full turns as
long as both angles are non-negative (for a negative angle the JavaScript
truncated `%` produces a negative array index and the lookup yields
`undefined`, so the unrestricted claim fails — see the counterexample), and
`toCardinal 0 = "N"`, `toCardinal 90 = "E"`. -/
theorem toCardinal_wrap_nonneg :
    (∀ (d : ℚ) (k : ℤ), 0 ≤ d → 0 ≤ d + 360 * k →
      toCardinal (d + 360 * k) = toCardinal d) ∧
    toCardinal 0 = some "N" ∧ toCardinal 90 = some "E" := by
  refine ⟨?_, by norm_num [toCardinal, jsRound]; decide, by norm_num [toCardinal, jsRound]; decide⟩
  intro d k hd hdk
  have hdiv : (d + 360 * k) / 45 = d / 45 + ((8 * k : ℤ) : ℚ) := by push_cast; ring
  have hround : jsRound ((d + 360 * k) / 45) = jsRound (d / 45) + 8 * k := by
    unfold jsRound
    rw [hdiv, add_right_comm]
    exact Int.floor_add_int (d / 45 + 1 / 2) (8 * k)
  have h1 : 0 ≤ jsRound (d / 45) := by
    unfold jsRound
    rw [Int.floor_nonneg]
    have h45 : (0 : ℚ) ≤ d / 45 := div_nonneg hd (by norm_num)
    linarith
  have h2 : 0 ≤ jsRound (d / 45) + 8 * k := by
    rw [← hround]
    unfold jsRound
    rw [Int.floor_nonneg]
    have h45 : (0 : ℚ) ≤ (d + 360 * k) / 45 := div_nonneg hdk (by norm_num)
    linarith
  have htmod : Int.tmod (jsRound (d / 45) + 8 * k) 8 = Int.tmod (jsRound (d / 45)) 8 := by
    rw [Int.tmod_eq_emod h2 (by norm_num), Int.tmod_eq_emod h1 (by norm_num)]
    exact Int.add_mul_emod_self_left _ _ _
  rw [toCardinal_def, toCardinal_def, hround, htmod]

/-- Witness for C2 at `d = 45`, `k = 1`. -/
theorem toCardinal_wrap_nonneg_witness :
    (0 : ℚ) ≤ 45 ∧ (0 : ℚ) ≤ 45 + 360 * (1 : ℤ) ∧
    toCardinal (45 + 360 * (1 : ℤ)) = toCardinal 45 :=
  ⟨by norm_num, by norm_num, toCardinal_wrap_nonneg.1 45 1 (by norm_num) (by norm_num)⟩

/-- Counterexample to C2 as stated: at `d = 90`, `k = -1` the wrapped angle
is `-270`, whose truncated remainder is a negative index, so the code yields
`undefined` (`none`), not `"E"`. -/
theorem toCardinal_wrap_counterexample :
    toCardinal 90 = some "E" ∧ toCardinal (90 + 360 * (-1 : ℤ)) = none := by
  constructor
  · norm_num [toCardinal, jsRound]; decide
  · norm_num [toCardinal, jsRound]; decide

/-! ## Claim C7 -/

/-- Claim C7: a `POST /api/suggest` with a weather object present but no API
credential configured responds 500 with the error message
"OPEN_AI_KEY is missing in .env", regardless of the upstream outcome. -/
theorem handleSuggest_missing_key (env : RelayEnv) (b : SuggestBody) (w : WeatherBody)
    (up : UpstreamResult) (hk : getApiKey env = none) (hw : b.weather = some w) :
    handleSuggest env (.parsed (some b)) up =
      (500, .errorBody "OPEN_AI_KEY is missing in .env") := by
  simp only [handleSuggest, hw, callOpenAI, hk, jsOr]
  rw [if_neg (by decide)]

/-- Witness for C7: empty-string and unset credential variables, a full
weather object, and an arbitrary upstream outcome. -/
theorem handleSuggest_missing_key_witness :
    getApiKey ⟨none, some ""⟩ = none ∧
    handleSuggest ⟨none, some ""⟩ (.parsed (some ⟨some sampleWeatherBody⟩))
        (.transportError "x") =
      (500, .errorBody "OPEN_AI_KEY is missing in .env") :=
  ⟨by decide, handleSuggest_missing_key _ _ sampleWeatherBody _ (by decide) rfl⟩

/-! ## Claim C4 -/

/-- Claim C4: the advice parser is a total function (by construction of the
embedding) that produces exactly one item per non-empty trimmed line, in the
input's line order (the map and length equations below), and a line matching
neither labeled pattern becomes an unlabeled item carrying the line (after
trimming and bullet stripping, where matching is attempted) rather than
being dropped. -/
theorem adviceItems_shape :
    (∀ cs, adviceItems cs =
      (nonEmptyTrimmedLines cs).map (fun l => parseLine (stripBullet l))) ∧
    (∀ cs, (adviceItems cs).length = (nonEmptyTrimmedLines cs).length) ∧
    (∀ line, boldMatch line = none → colonMatch line = none →
      parseLine line = ⟨[], line⟩) := by
  have h1 : ∀ cs, adviceItems cs =
      (nonEmptyTrimmedLines cs).map (fun l => parseLine (stripBullet l)) := by
    intro cs
    by_cases h : cs = []
    · subst h; rfl
    · simp [adviceItems, h, List.map_map, Function.comp]
  refine ⟨h1, ?_, ?_⟩
  · intro cs
    rw [h1, List.length_map]
  · intro line hb hc
    simp [parseLine, hb, hc]

/-- Witness for C4 on an unlabeled line. -/
theorem adviceItems_shape_witness :
    boldMatch "just text".toList = none ∧ colonMatch "just text".toList = none ∧
    parseLine "just text".toList = ⟨[], "just text".toList⟩ :=
  ⟨by decide, by decide, adviceItems_shape.2.2 "just text".toList (by decide) (by decide)⟩

/-! ## Claim C5 -/

/-- Claim C5: toggling the unit system with a resolved location issues a new
forecast request built from the toggled unit and the stored coordinates; the
toggle step leaves the cached snapshot untouched, the request carries the
new unit tokens (which always differ from the pre-toggle unit's), and a
later successful forecast replaces the snapshot with data derived only from
the response and request, never from the previous snapshot. -/
theorem handleUnitToggle_refetch :
    (∀ (s : AppState) (c : Coords), s.coords = some c →
      (handleUnitToggle s).2 = some (buildForecastRequest c.lat c.lon (toggleUnit s.unit)) ∧
      (handleUnitToggle s).1.weather = s.weather ∧
      (handleUnitToggle s).1.unit = toggleUnit s.unit ∧
      toggleUnit s.unit ≠ s.unit) ∧
    (∀ (la lo : ℚ) (u : UnitSystem),
      (buildForecastRequest la lo u).latitude = la ∧
      (buildForecastRequest la lo u).longitude = lo ∧
      (buildForecastRequest la lo u).temperatureUnit = unitTokenTemp u ∧
      (buildForecastRequest la lo u).windSpeedUnit = unitTokenWind u) ∧
    (unitTokenTemp .celsius = "celsius" ∧ unitTokenWind .celsius = "kmh" ∧
      unitTokenTemp .fahrenheit = "fahrenheit" ∧ unitTokenWind .fahrenheit = "mph") ∧
    (∀ (s1 s2 : AppState) (req : ForecastRequest) (lbl : String) (st : Nat)
        (d : ForecastData) (cur : CurrentData), d.current = some cur →
      (applyForecastResult s1 req lbl true st d).weather =
        (applyForecastResult s2 req lbl true st d).weather) := by
  refine ⟨?_, ?_, ⟨rfl, rfl, rfl, rfl⟩, ?_⟩
  · intro s c hc
    cases hu : s.unit <;>
      simp [handleUnitToggle, hc, hu, fetchWeatherStart, toggleUnit]
  · intro la lo u
    exact ⟨rfl, rfl, rfl, rfl⟩
  · intro s1 s2 req lbl st d cur hcur
    simp [applyForecastResult, hcur]

/-- Witness for C5 on a state with resolved coordinates (45, 90). -/
theorem handleUnitToggle_refetch_witness :
    unitToggleSample.coords = some ⟨45, 90⟩ ∧
    (handleUnitToggle unitToggleSample).2 =
      some (buildForecastRequest 45 90 (toggleUnit unitToggleSample.unit)) ∧
    (handleUnitToggle unitToggleSample).1.weather = unitToggleSample.weather :=
  ⟨rfl, (handleUnitToggle_refetch.1 unitToggleSample ⟨45, 90⟩ rfl).1,
    (handleUnitToggle_refetch.1 unitToggleSample ⟨45, 90⟩ rfl).2.1⟩

/-! ## Claim C6 -/

/-- Claim C6 (amended): a successful advice response always ends the advice
flow in the ready state (never the error state), and the stored advice
content is empty exactly when both the parsed suggestion field and the raw
body text are empty; an empty suggestion field with a nonempty raw body
displays the raw body instead of falling back to the empty/help state. -/
theorem handleAdviceResponse_ok (s : AppState) (r : AdviceHttpResponse) (hok : r.ok = true) :
    (handleAdviceResponse s r).adviceStatus = .ready ∧
    ((handleAdviceResponse s r).advice = "" ↔
      ((adviceData r).suggestion.getD "" = "" ∧ r.rawText = "")) := by
  constructor
  · simp [handleAdviceResponse, hok]
  · simp only [handleAdviceResponse, hok, if_pos]
    unfold jsOr
    by_cases h1 : (adviceData r).suggestion.getD "" = "" <;>
      by_cases h2 : r.rawText = "" <;> simp [h1, h2]

/-- Witness for C6 on the concrete successful response `c6Resp`. -/
theorem handleAdviceResponse_ok_witness :
    c6Resp.ok = true ∧
    ((handleAdviceResponse initState c6Resp).adviceStatus = .ready ∧
      ((handleAdviceResponse initState c6Resp).advice = "" ↔
        ((adviceData c6Resp).suggestion.getD "" = "" ∧ c6Resp.rawText = ""))) :=
  ⟨rfl, handleAdviceResponse_ok initState c6Resp rfl⟩

/-- Counterexample to C6 as stated: a successful response whose suggestion
field is the empty string but whose raw body is "raw body" ends ready with
the (nonempty) raw body as the displayed advice content, not with empty
content. -/
theorem handleAdviceResponse_empty_suggestion_counterexample :
    c6Resp.ok = true ∧ (adviceData c6Resp).suggestion = some "" ∧
    (handleAdviceResponse initState c6Resp).adviceStatus = Status.ready ∧
    (handleAdviceResponse initState c6Resp).advice = "raw body" ∧
    ("raw body" : String) ≠ "" := by
  refine ⟨rfl, rfl, rfl, by decide, by decide⟩

/-! ## Claim C8 -/

/-- Folding string concatenation over a list from an accumulator equals the
accumulator followed by the joined mapped strings. -/
theorem foldl_append_concat {α : Type} (f : α → String) :
    ∀ (l : List α) (acc : String),
      l.foldl (fun a x => a ++ f x) acc = acc ++ concatStrings (l.map f)
  | [], acc => by simp [concatStrings]
  | x :: rest, acc => by
    simp only [List.foldl_cons, List.map_cons, concatStrings]
    rw [foldl_append_concat f rest (acc ++ f x), String.append_assoc]

/-- Claim C8 (amended): extraction prefers the single flattened text field;
otherwise it is the *trimmed* concatenation, in output-list order, of the
text fragments of text-bearing content parts of message-type items *and* of
the text of top-level output_text items (`extractOutputTextAmended`). -/
theorem extractOutputText_eq_amended (r : Option OAIResponse) :
    extractOutputText r = extractOutputTextAmended r := by
  cases r with
  | none => rfl
  | some resp =>
    obtain ⟨ot, out⟩ := resp
    cases ot with
    | some s => rfl
    | none =>
      cases out with
      | none => rfl
      | some items =>
        have h := foldl_append_concat itemText items ""
        simp only [extractOutputText, extractOutputTextAmended]
        rw [h]
        simp

/-- Counterexample to C8 as stated: with no flattened field and a single
top-level output_text item, the code extracts that item's text while the
claimed message-items-only concatenation is empty. -/
theorem extractOutputText_claimed_counterexample :
    extractOutputText (some c8Resp) = "hi" ∧ extractOutputTextClaimed c8Resp = "" ∧
    extractOutputText (some c8Resp) ≠ extractOutputTextClaimed c8Resp := by
  refine ⟨by decide, by decide, by decide⟩

/-! ## Claim C10 -/

/-- Claim C10: every step of the pipeline that issues a forecast request
(any weather trigger: geolocation success, manual-coordinate submit,
city-search success, or unit toggle with a resolved location) leaves the
city-search error text cleared in the resulting state — every
request-issuing path passes through `fetchWeatherStart`, which clears
`cityError` before the forecast call. -/
theorem step_forecast_clears_city_error (s : AppState) (e : Event) (r : ForecastRequest)
    (h : (step s e).2 = some r) : (step s e).1.cityError = "" := by
  cases e with
  | locate => simp [step] at h
  | geoSuccess la lo => rfl
  | geoFailure pd => simp [step] at h
  | manualSubmit laS loS =>
    simp only [step, handleManualSubmit] at h ⊢
    cases hla : parseCoord laS <;> cases hlo : parseCoord loS <;>
      simp [hla, hlo, fetchWeatherStart] at h ⊢
  | cityInput q => simp [step] at h
  | citySubmit =>
    simp only [step] at h
    split at h <;> simp at h
  | cityDoneOk name admin1 country la lo => rfl
  | cityDoneErr msg => simp [step] at h
  | unitToggle =>
    simp only [step, handleUnitToggle] at h ⊢
    cases hc : s.coords <;> simp [hc, fetchWeatherStart] at h ⊢
  | forecastDone ok httpStatus d =>
    simp only [step] at h
    cases hp : s.pendingFetch <;> simp [hp] at h
  | adviceDone r2 => simp [step] at h

/-- Witness for C10 at a geolocation-success trigger. -/
theorem step_forecast_clears_city_error_witness :
    (step initState (.geoSuccess 45 90)).2 =
      some (buildForecastRequest 45 90 initState.unit) ∧
    (step initState (.geoSuccess 45 90)).1.cityError = "" :=
  ⟨rfl, step_forecast_clears_city_error initState (.geoSuccess 45 90)
    (buildForecastRequest 45 90 initState.unit) rfl⟩

/-! ## Claim C9 -/

/-- Field behavior of the forecast continuation: the pending slot is always
cleared, and the resolved coordinates are either untouched (failure paths)
or copied from the request parameters (success path). -/
theorem applyForecastResult_core (s : AppState) (req : ForecastRequest) (lbl : String)
    (ok : Bool) (st : Nat) (d : ForecastData) :
    (applyForecastResult s req lbl ok st d).pendingFetch = none ∧
    ((applyForecastResult s req lbl ok st d).coords = s.coords ∨
      (applyForecastResult s req lbl ok st d).coords = some ⟨req.latitude, req.longitude⟩) := by
  unfold applyForecastResult
  cases ok with
  | false => simp
  | true => cases hcur : d.current <;> simp [hcur]

/-- One pipeline step preserves the coordinate-range invariant as long as
the triggering event supplies only in-range coordinates: the pipeline never
synthesizes coordinates, it only copies them from events into the pending
request and from the pending request into the resolved slot. -/
theorem step_preserves_range (s : AppState) (e : Event) (hs : stateCoordsInRange s)
    (he : eventInRange e) : stateCoordsInRange (step s e).1 := by
  obtain ⟨hcs, hps⟩ := hs
  cases e with
  | locate => exact ⟨hcs, hps⟩
  | geoSuccess la lo =>
    refine ⟨fun c hc => hcs c hc, fun rl hrl => ?_⟩
    simp only [step, fetchWeatherStart, Option.some.injEq] at hrl
    rw [← hrl]
    exact he
  | geoFailure pd => exact ⟨hcs, hps⟩
  | manualSubmit laS loS =>
    simp only [step, handleManualSubmit]
    cases hla : parseCoord laS with
    | none => exact ⟨hcs, hps⟩
    | some la =>
      cases hlo : parseCoord loS with
      | none => exact ⟨hcs, hps⟩
      | some lo =>
        refine ⟨fun c hc => hcs c hc, fun rl hrl => ?_⟩
        simp only [fetchWeatherStart, Option.some.injEq] at hrl
        rw [← hrl]
        exact he la lo hla hlo
  | cityInput q => exact ⟨hcs, hps⟩
  | citySubmit =>
    simp only [step]
    split <;> exact ⟨hcs, hps⟩
  | cityDoneOk name admin1 country la lo =>
    refine ⟨fun c hc => hcs c hc, fun rl hrl => ?_⟩
    simp only [step, fetchWeatherStart, Option.some.injEq] at hrl
    rw [← hrl]
    exact he
  | cityDoneErr msg => exact ⟨hcs, hps⟩
  | unitToggle =>
    simp only [step, handleUnitToggle]
    cases hc : s.coords with
    | none => exact ⟨fun c h2 => hcs c (by rw [hc]; exact h2), hps⟩
    | some c0 =>
      refine ⟨fun c h2 => hcs c (by rw [hc]; exact h2), fun rl hrl => ?_⟩
      simp only [fetchWeatherStart, Option.some.injEq] at hrl
      rw [← hrl]
      exact hcs c0 hc
  | forecastDone ok httpStatus d =>
    simp only [step]
    cases hp : s.pendingFetch with
    | none => exact ⟨hcs, hps⟩
    | some rl0 =>
      have hr : latLonInRange rl0.1.latitude rl0.1.longitude := hps rl0 hp
      obtain ⟨hpn, hco⟩ := applyForecastResult_core s rl0.1 rl0.2 ok httpStatus d
      refine ⟨fun c hc2 => ?_, fun rl hrl => ?_⟩
      · rcases hco with hch | hch
        · rw [hch] at hc2
          exact hcs c hc2
        · rw [hch] at hc2
          obtain rfl := Option.some.inj hc2
          exact hr
      · rw [hpn] at hrl
        exact absurd hrl (by simp)
  | adviceDone r2 =>
    simp only [step, handleAdviceResponse]
    split <;> exact ⟨hcs, hps⟩

/-- The range invariant holds after any fold of in-range events. -/
theorem foldl_preserves_range :
    ∀ (events : List Event) (s : AppState), stateCoordsInRange s →
      (∀ e ∈ events, eventInRange e) →
      stateCoordsInRange (events.foldl (fun s e => (step s e).1) s)
  | [], _, hs, _ => hs
  | e :: rest, s, hs, h => by
    simp only [List.foldl_cons]
    exact foldl_preserves_range rest _
      (step_preserves_range s e hs (h e (by simp)))
      (fun e2 he2 => h e2 (by simp [he2]))

/-- Claim C9 (amended): for every sequence of location events that supply
only in-range coordinates, every resolved `Coordinates` value lies in
latitude [-90, 90] and longitude [-180, 180].  The pipeline itself performs
no range validation (`parseCoord` only requires a finite number), so the
unconditional claim fails — see the counterexample. -/
theorem resolved_coords_in_range (events : List Event)
    (h : ∀ e ∈ events, eventInRange e) (c : Coords)
    (hc : (runEvents events).coords = some c) : latLonInRange c.lat c.lon := by
  have hinit : stateCoordsInRange initState :=
    ⟨fun c hco => by simp [initState] at hco, fun rl hrl => by simp [initState] at hrl⟩
  exact (foldl_preserves_range events initState hinit h).1 c hc

/-- Witness for C9: the in-range manual submit resolves to (45, 90), which
the theorem certifies in range. -/
theorem resolved_coords_in_range_witness :
    (runEvents c9GoodEvents).coords = some ⟨45, 90⟩ ∧ latLonInRange (45 : ℚ) 90 := by
  have hev : ∀ e ∈ c9GoodEvents, eventInRange e := by
    intro e he
    fin_cases he
    · intro la lo h1 h2
      have e1 : parseCoord "45" = some 45 := by decide
      have e2 : parseCoord "90" = some 90 := by decide
      obtain rfl : (45 : ℚ) = la := Option.some.inj (e1.symm.trans h1)
      obtain rfl : (90 : ℚ) = lo := Option.some.inj (e2.symm.trans h2)
      decide
    · trivial
  have hc : (runEvents c9GoodEvents).coords = some ⟨45, 90⟩ := by decide
  exact ⟨hc, resolved_coords_in_range c9GoodEvents hev ⟨45, 90⟩ hc⟩

/-- Counterexample to C9 as stated: a manual submit of latitude "1000"
(accepted by `parseCoord`, which checks only finiteness) followed by a
successful forecast resolves coordinates with latitude 1000, outside
[-90, 90]. -/
theorem resolved_coords_out_of_range_counterexample :
    (runEvents c9BadEvents).coords = some ⟨1000, 0⟩ ∧ ¬ latLonInRange (1000 : ℚ) 0 := by
  refine ⟨by decide, by decide⟩

/-! ## Claim C3: lemma stack

Line-level facts about `splitOnNl`, `joinNl`, `jsTrim` and the three
matchers, feeding the reconstruction round trip. -/

/-- Lines produced by splitting contain no newline. -/
theorem mem_splitOnNl_no_nl : ∀ (cs : List Char), ∀ l ∈ splitOnNl cs, '\n' ∉ l
  | [], l, hl => by
    simp only [splitOnNl, List.mem_singleton] at hl
    simp [hl]
  | c :: rest, l, hl => by
    rw [splitOnNl] at hl
    by_cases hc : c = '\n'
    · rw [if_pos hc] at hl
      rcases List.mem_cons.mp hl with h | h
      · simp [h]
      · exact mem_splitOnNl_no_nl rest l h
    · rw [if_neg hc] at hl
      cases hr : splitOnNl rest with
      | nil =>
        rw [hr] at hl
        simp only [List.mem_singleton] at hl
        simp only [hl, List.mem_singleton]
        exact fun h => hc h.symm
      | cons h0 t0 =>
        rw [hr] at hl
        rcases List.mem_cons.mp hl with h | h
        · subst h
          intro hmem
          rcases List.mem_cons.mp hmem with h | h
          · exact hc h.symm
          · exact mem_splitOnNl_no_nl rest h0 (hr ▸ List.mem_cons_self h0 t0) h
        · exact mem_splitOnNl_no_nl rest l (hr ▸ List.mem_cons_of_mem h0 h)

/-- Splitting a newline-free line gives that single line. -/
theorem splitOnNl_no_nl (l : List Char) (h : '\n' ∉ l) : splitOnNl l = [l] := by
  induction l with
  | nil => rfl
  | cons c rest ih =>
    have hc : ¬ c = '\n' := fun hcc => h (by simp [hcc])
    rw [splitOnNl, if_neg hc, ih (fun hm => h (List.mem_cons_of_mem c hm))]

/-- Splitting distributes over a newline separator after a newline-free
first line. -/
theorem splitOnNl_append (l cs : List Char) (h : '\n' ∉ l) :
    splitOnNl (l ++ '\n' :: cs) = l :: splitOnNl cs := by
  induction l with
  | nil => simp [splitOnNl]
  | cons c rest ih =>
    have hc : ¬ c = '\n' := fun hcc => h (by simp [hcc])
    rw [List.cons_append, splitOnNl, if_neg hc,
      ih (fun hm => h (List.mem_cons_of_mem c hm))]

/-- Splitting inverts joining for a nonempty list of newline-free lines. -/
theorem splitOnNl_joinNl :
    ∀ (ls : List (List Char)), ls ≠ [] → (∀ l ∈ ls, '\n' ∉ l) →
      splitOnNl (joinNl ls) = ls
  | [], hne, _ => absurd rfl hne
  | [l], _, h => by
    rw [joinNl, splitOnNl_no_nl l (h l (by simp))]
  | l :: l2 :: t, _, h => by
    rw [joinNl, splitOnNl_append _ _ (h l (by simp)),
      splitOnNl_joinNl (l2 :: t) (by simp) (fun x hx => h x (List.mem_cons_of_mem l hx))]

/-- `dropWhile` is the identity when the head fails the predicate. -/
theorem dropWhile_eq_self_of_head {p : Char → Bool} {l : List Char}
    (h : ∀ c, l.head? = some c → p c = false) : l.dropWhile p = l := by
  cases l with
  | nil => rfl
  | cons c rest => exact List.dropWhile_cons_of_neg (by simp [h c rfl])

/-- The last entry of a whole list is the last entry of any nonempty
suffix. -/
theorem getLast?_of_suffix {l1 l2 : List Char} (h : l1 <:+ l2) (hne : l1 ≠ []) :
    l2.getLast? = l1.getLast? := by
  obtain ⟨pre, rfl⟩ := h
  rw [List.getLast?_append]
  obtain ⟨a, ha⟩ := Option.isSome_iff_exists.mp (List.getLast?_isSome.mpr hne)
  rw [ha]
  rfl

/-- The head of a trimmed list is not whitespace. -/
theorem jsTrim_head_not_ws (cs : List Char) :
    ∀ c, (jsTrim cs).head? = some c → c.isWhitespace = false := by
  intro c hc
  unfold jsTrim at hc
  rw [List.head?_reverse] at hc
  have hzne : (cs.dropWhile Char.isWhitespace).reverse.dropWhile Char.isWhitespace ≠ [] := by
    intro h0
    rw [h0] at hc
    simp at hc
  have h1 := getLast?_of_suffix (List.dropWhile_suffix Char.isWhitespace) hzne
  rw [← h1, List.getLast?_reverse] at hc
  have h2 := List.head?_dropWhile_not Char.isWhitespace cs
  simp only [hc] at h2
  exact h2

/-- The last entry of a trimmed list is not whitespace. -/
theorem jsTrim_getLast_not_ws (cs : List Char) :
    ∀ c, (jsTrim cs).getLast? = some c → c.isWhitespace = false := by
  intro c hc
  unfold jsTrim at hc
  rw [List.getLast?_reverse] at hc
  have h2 := List.head?_dropWhile_not Char.isWhitespace (cs.dropWhile Char.isWhitespace).reverse
  simp only [hc] at h2
  exact h2

/-- Trimming only removes characters. -/
theorem jsTrim_subset (cs : List Char) : ∀ c ∈ jsTrim cs, c ∈ cs := by
  intro c hc
  unfold jsTrim at hc
  rw [List.mem_reverse] at hc
  have h1 := List.Sublist.mem hc (List.dropWhile_sublist Char.isWhitespace)
  rw [List.mem_reverse] at h1
  exact List.Sublist.mem h1 (List.dropWhile_sublist Char.isWhitespace)

/-- Trimming is the identity when neither end is whitespace. -/
theorem jsTrim_eq_self {l : List Char}
    (h1 : ∀ c, l.head? = some c → c.isWhitespace = false)
    (h2 : ∀ c, l.getLast? = some c → c.isWhitespace = false) : jsTrim l = l := by
  unfold jsTrim
  rw [dropWhile_eq_self_of_head h1,
    dropWhile_eq_self_of_head (fun c hc => h2 c (by rwa [List.head?_reverse] at hc)),
    List.reverse_reverse]

/-- Bullet stripping only removes characters. -/
theorem stripBullet_subset (l : List Char) : ∀ c ∈ stripBullet l, c ∈ l := by
  intro c hc
  cases l with
  | nil => exact hc
  | cons c0 rest =>
    rw [stripBullet] at hc
    split at hc
    · exact List.mem_cons_of_mem c0 (List.Sublist.mem hc (List.dropWhile_sublist _))
    · exact hc

/-- On an input whose last character is not whitespace, a successful
`\s*(.+)$` match is exactly the whitespace-stripped remainder, which is
nonempty (the all-whitespace backtracking branch cannot fire). -/
theorem matchSpaceText_some {aft t : List Char} (h : matchSpaceText aft = some t)
    (hlast : ∀ c, aft.getLast? = some c → c.isWhitespace = false) :
    t = aft.dropWhile Char.isWhitespace ∧ t ≠ [] := by
  unfold matchSpaceText at h
  cases hd : aft.dropWhile Char.isWhitespace with
  | nil =>
    exfalso
    cases hl : aft.getLast? with
    | none =>
      rw [hd, hl] at h
      exact Option.noConfusion h
    | some c =>
      have hcw : c.isWhitespace = false := hlast c hl
      have hall : ∀ x ∈ aft, x.isWhitespace = true := List.dropWhile_eq_nil_iff.mp hd
      have hmem : c ∈ aft := List.mem_of_mem_getLast? hl
      rw [hall c hmem] at hcw
      exact Bool.noConfusion hcw
  | cons x xs =>
    rw [hd] at h
    cases hl : aft.getLast? with
    | none =>
      rw [hl] at h
      exact ⟨(Option.some.inj h).symm, by simp [← Option.some.inj h]⟩
    | some c =>
      rw [hl] at h
      exact ⟨(Option.some.inj h).symm, by simp [← Option.some.inj h]⟩

/-- The empty remainder never matches `\s*(.+)$`. -/
theorem matchSpaceText_nil : matchSpaceText [] = none := rfl

/-- Decomposition of a successful bare-colon match: the label is the
(nonempty) colon-free run before the first colon, and the text matches
`\s*(.+)$` on what follows that colon. -/
theorem colonMatch_some {s l t : List Char} (h : colonMatch s = some (l, t)) :
    l = s.takeWhile (fun c => c ≠ ':') ∧ l ≠ [] ∧
    ∃ aft, s = l ++ ':' :: aft ∧ matchSpaceText aft = some t := by
  unfold colonMatch at h
  split at h
  · exact Option.noConfusion h
  · exact Option.noConfusion h
  · rename_i x0 lab d aft hdrop htkne
    cases hms : matchSpaceText aft with
    | none =>
      rw [hms] at h
      exact Option.noConfusion h
    | some t0 =>
      rw [hms] at h
      simp only [Option.map_some', Option.some.injEq, Prod.mk.injEq] at h
      obtain ⟨hl, ht⟩ := h
      subst ht
      have hd : d = ':' := by
        have h2 := List.head?_dropWhile_not (fun c => decide (c ≠ ':')) s
        rw [hdrop] at h2
        simp only [List.head?_cons, decide_eq_false_iff_not, not_not] at h2
        exact h2
      refine ⟨hl.symm, fun h0 => htkne (by rw [hl, h0]), aft, ?_, hms⟩
      have hta := List.takeWhile_append_dropWhile (fun c => decide (c ≠ ':')) s
      rw [hdrop, hd, hl] at hta
      exact hta.symm

/-- Decomposition of a successful lazy bold scan: the accumulated input
splits as label, literal `**:`, and a remainder matching `\s*(.+)$`; the
label is nonempty. -/
theorem boldAux_some :
    ∀ (acc rest l t : List Char), boldAux acc rest = some (l, t) →
      l ≠ [] ∧ ∃ aft, acc.reverse ++ rest = l ++ '*' :: '*' :: ':' :: aft ∧
        matchSpaceText aft = some t
  | _, [], _, _, h => by rw [boldAux.eq_1] at h; exact Option.noConfusion h
  | acc, c :: rest, l, t, h => by
    by_cases hsh : ∃ aft, rest = '*' :: '*' :: ':' :: aft
    · obtain ⟨aft, rfl⟩ := hsh
      rw [boldAux.eq_2] at h
      cases hms : matchSpaceText aft with
      | none =>
        rw [hms] at h
        obtain ⟨hl, aft2, haft, hrec⟩ :=
          boldAux_some (c :: acc) ('*' :: '*' :: ':' :: aft) l t h
        refine ⟨hl, aft2, ?_, hrec⟩
        rw [← haft]
        simp
      | some t0 =>
        rw [hms] at h
        simp only [Option.some.injEq, Prod.mk.injEq] at h
        obtain ⟨hl, ht⟩ := h
        subst hl
        subst ht
        exact ⟨by simp, aft, by simp, hms⟩
    · rw [boldAux.eq_3 acc c rest (fun aft ha => hsh ⟨aft, ha⟩)] at h
      obtain ⟨hl, aft, haft, hrec⟩ := boldAux_some (c :: acc) rest l t h
      refine ⟨hl, aft, ?_, hrec⟩
      rw [← haft]
      simp

/-- Decomposition of a successful bold match. -/
theorem boldMatch_some {s l t : List Char} (h : boldMatch s = some (l, t)) :
    l ≠ [] ∧ ∃ aft, s = '*' :: '*' :: (l ++ '*' :: '*' :: ':' :: aft) ∧
      matchSpaceText aft = some t := by
  unfold boldMatch at h
  split at h
  · rename_i rest
    obtain ⟨hl, aft, haft, hms⟩ := boldAux_some [] rest l t h
    simp only [List.reverse_nil, List.nil_append] at haft
    exact ⟨hl, aft, by rw [haft], hms⟩
  · exact Option.noConfusion h

/-- Dropping the head keeps the last entry of a list that stays nonempty. -/
theorem getLast?_cons_of_ne_nil {a : Char} {t : List Char} (h : t ≠ []) :
    (a :: t).getLast? = t.getLast? := by
  cases t with
  | nil => exact absurd rfl h
  | cons x xs => exact List.getLast?_cons_cons

/-- Reconstruction round trip at line level: a good label followed by `": "`
and a nonempty text with non-whitespace head re-parses, via the bare-colon
pattern, to exactly that label and text. -/
theorem parseLine_render {l t : List Char} (hl : goodLabel l = true) (ht : t ≠ [])
    (hth : ∀ c, t.head? = some c → c.isWhitespace = false) :
    parseLine (l ++ ':' :: ' ' :: t) = ⟨l, t⟩ := by
  obtain ⟨c0, l0, rfl⟩ : ∃ c0 l0, l = c0 :: l0 := by
    cases l with
    | nil => exact absurd hl (by simp [goodLabel])
    | cons a b => exact ⟨a, b, rfl⟩
  have hgl := hl
  rw [goodLabel] at hgl
  simp only [Bool.and_eq_true, Bool.not_eq_true', decide_eq_false_iff_not] at hgl
  obtain ⟨⟨⟨h1, h2⟩, h3⟩, h4⟩ := hgl
  have hball : ∀ x ∈ c0 :: l0, (fun c => decide (c ≠ ':')) x = true := by
    intro x hx
    simp only [decide_eq_true_eq]
    exact fun h0 => h4 (h0 ▸ hx)
  have hb : boldMatch ((c0 :: l0) ++ ':' :: ' ' :: t) = none := by
    rw [List.cons_append]
    unfold boldMatch
    split
    · rename_i rest heq
      injection heq with heq1 _
      exact absurd heq1 h3
    · rfl
  have htake : ((c0 :: l0) ++ ':' :: ' ' :: t).takeWhile (fun c => c ≠ ':') = c0 :: l0 := by
    rw [List.takeWhile_append, List.takeWhile_eq_self_iff.mpr hball, if_pos rfl,
      List.takeWhile_cons_of_neg (by simp)]
    simp
  have hdrop : ((c0 :: l0) ++ ':' :: ' ' :: t).dropWhile (fun c => c ≠ ':') =
      ':' :: ' ' :: t := by
    have hdnil : (c0 :: l0).dropWhile (fun c => c ≠ ':') = [] :=
      List.dropWhile_eq_nil_iff.mpr hball
    rw [List.dropWhile_append, hdnil]
    simp only [List.isEmpty_nil, if_true]
    rw [List.dropWhile_cons_of_neg (by simp)]
  have hmst : matchSpaceText (' ' :: t) = some t := by
    have hdt : (' ' :: t).dropWhile Char.isWhitespace = t := by
      rw [List.dropWhile_cons_of_pos (by decide)]
      exact dropWhile_eq_self_of_head hth
    unfold matchSpaceText
    rw [hdt]
    cases t with
    | nil => exact absurd rfl ht
    | cons x xs => rfl
  have hcolon : colonMatch ((c0 :: l0) ++ ':' :: ' ' :: t) = some (c0 :: l0, t) := by
    unfold colonMatch
    rw [htake, hdrop]
    show (matchSpaceText (' ' :: t)).map (fun text => (c0 :: l0, text)) = some (c0 :: l0, t)
    rw [hmst]
    rfl
  simp only [parseLine, hb, hcolon]

/-- Properties of a labeled parse on a line whose last character is not
whitespace: the text is nonempty, its head and last characters are not
whitespace, and label and text characters all come from the line. -/
theorem parseLine_matched_props {s l t : List Char}
    (hlast : ∀ c, s.getLast? = some c → c.isWhitespace = false)
    (h : parseLine s = ⟨l, t⟩) (hl : l ≠ []) :
    t ≠ [] ∧ (∀ c, t.head? = some c → c.isWhitespace = false) ∧
    (∀ c, t.getLast? = some c → c.isWhitespace = false) ∧
    (∀ c ∈ l, c ∈ s) ∧ (∀ c ∈ t, c ∈ s) := by
  unfold parseLine at h
  cases hb : boldMatch s with
  | some lt =>
    rw [hb] at h
    simp only [AdviceItem.mk.injEq] at h
    obtain ⟨rfl, rfl⟩ := h
    obtain ⟨hlne, aft, hs, hms⟩ := boldMatch_some hb
    have haftne : aft ≠ [] := by
      intro h0
      rw [h0, matchSpaceText_nil] at hms
      exact Option.noConfusion hms
    have hsuf : aft <:+ s := ⟨'*' :: '*' :: (lt.1 ++ '*' :: '*' :: [':']), by rw [hs]; simp⟩
    have hlaft : ∀ c, aft.getLast? = some c → c.isWhitespace = false := fun c hc =>
      hlast c (by rw [getLast?_of_suffix hsuf haftne, hc])
    obtain ⟨htd, htne⟩ := matchSpaceText_some hms hlaft
    refine ⟨htne, ?_, ?_, ?_, ?_⟩
    · intro c hc
      rw [htd] at hc
      have h2 := List.head?_dropWhile_not Char.isWhitespace aft
      simp only [hc] at h2
      exact h2
    · intro c hc
      have hsuf2 : lt.2 <:+ aft := htd ▸ List.dropWhile_suffix _
      exact hlaft c (by rw [getLast?_of_suffix hsuf2 htne, hc])
    · intro c hc
      rw [hs]
      simp [hc]
    · intro c hc
      have hm2 : c ∈ aft := List.Sublist.mem (htd ▸ hc) (List.dropWhile_sublist _)
      rw [hs]
      simp [hm2]
  | none =>
    rw [hb] at h
    cases hc : colonMatch s with
    | none =>
      rw [hc] at h
      simp only [AdviceItem.mk.injEq] at h
      exact absurd h.1.symm hl
    | some lt =>
      rw [hc] at h
      simp only [AdviceItem.mk.injEq] at h
      obtain ⟨rfl, rfl⟩ := h
      obtain ⟨_, hlne, aft, hs, hms⟩ := colonMatch_some hc
      have haftne : aft ≠ [] := by
        intro h0
        rw [h0, matchSpaceText_nil] at hms
        exact Option.noConfusion hms
      have hsuf : aft <:+ s := ⟨lt.1 ++ [':'], by rw [hs]; simp⟩
      have hlaft : ∀ c, aft.getLast? = some c → c.isWhitespace = false := fun c hc2 =>
        hlast c (by rw [getLast?_of_suffix hsuf haftne, hc2])
      obtain ⟨htd, htne⟩ := matchSpaceText_some hms hlaft
      refine ⟨htne, ?_, ?_, ?_, ?_⟩
      · intro c hc2
        rw [htd] at hc2
        have h2 := List.head?_dropWhile_not Char.isWhitespace aft
        simp only [hc2] at h2
        exact h2
      · intro c hc2
        have hsuf2 : lt.2 <:+ aft := htd ▸ List.dropWhile_suffix _
        exact hlaft c (by rw [getLast?_of_suffix hsuf2 htne, hc2])
      · intro c hc2
        rw [hs]
        simp [hc2]
      · intro c hc2
        have hm2 : c ∈ aft := List.Sublist.mem (htd ▸ hc2) (List.dropWhile_sublist _)
        rw [hs]
        simp [hm2]

/-- Bullet stripping preserves non-whitespace heads and last characters. -/
theorem stripBullet_props {l : List Char}
    (hh : ∀ c, l.head? = some c → c.isWhitespace = false)
    (hg : ∀ c, l.getLast? = some c → c.isWhitespace = false)
    (hne : stripBullet l ≠ []) :
    (∀ c, (stripBullet l).head? = some c → c.isWhitespace = false) ∧
    (∀ c, (stripBullet l).getLast? = some c → c.isWhitespace = false) := by
  cases l with
  | nil => exact ⟨hh, hg⟩
  | cons c0 rest =>
    rw [stripBullet] at hne ⊢
    by_cases hcb : c0 = '-' ∨ c0 = '*'
    · rw [if_pos hcb] at hne ⊢
      constructor
      · intro c hc2
        have h2 := List.head?_dropWhile_not Char.isWhitespace rest
        simp only [hc2] at h2
        exact h2
      · intro c hc2
        refine hg c ?_
        rw [getLast?_of_suffix
            (List.IsSuffix.trans (List.dropWhile_suffix _)
              (⟨[c0], rfl⟩ : rest <:+ c0 :: rest)) hne,
          hc2]
    · rw [if_neg hcb] at hne ⊢
      exact ⟨hh, hg⟩

/-- Every processed line (split, trimmed, nonempty, bullet-stripped) is
newline free and, when nonempty, has non-whitespace head and last
characters. -/
theorem processed_line_props {cs x : List Char}
    (hx : x ∈ (nonEmptyTrimmedLines cs).map stripBullet) :
    '\n' ∉ x ∧ (x ≠ [] →
      (∀ c, x.head? = some c → c.isWhitespace = false) ∧
      (∀ c, x.getLast? = some c → c.isWhitespace = false)) := by
  obtain ⟨tl, hmem, rfl⟩ := List.mem_map.mp hx
  obtain ⟨hmap, _⟩ := List.mem_filter.mp hmem
  obtain ⟨raw, hraw, rfl⟩ := List.mem_map.mp hmap
  have hnl : '\n' ∉ jsTrim raw := fun hm =>
    mem_splitOnNl_no_nl cs raw hraw (jsTrim_subset raw _ hm)
  refine ⟨fun hm => hnl (stripBullet_subset _ _ hm), fun hxne => ?_⟩
  exact stripBullet_props (jsTrim_head_not_ws raw) (jsTrim_getLast_not_ws raw) hxne

/-- A line matches pattern (a) or (b) exactly when its parsed label is
nonempty (the fallback is the only source of empty labels). -/
theorem matchedAB_iff_label_ne (line : List Char) :
    matchedAB line = true ↔ (parseLine line).label ≠ [] := by
  cases hb : boldMatch line with
  | some lt =>
    simp only [matchedAB, parseLine, hb, Option.isSome_some, Bool.true_or, true_iff]
    exact (boldMatch_some hb).1
  | none =>
    cases hc : colonMatch line with
    | some lt =>
      simp only [matchedAB, parseLine, hb, hc, Option.isSome_some, Option.isSome_none,
        Bool.false_or, true_iff]
      exact (colonMatch_some hc).2.1
    | none => simp [matchedAB, parseLine, hb, hc]

/-- Re-parsing the reconstruction is the identity on any item list whose
rendered lines survive the pipeline unchanged. -/
theorem adviceItems_of_good_items (items : List AdviceItem)
    (key : ∀ it ∈ items,
      ('\n' ∉ renderItem it) ∧ renderItem it ≠ [] ∧ jsTrim (renderItem it) = renderItem it ∧
      stripBullet (renderItem it) = renderItem it ∧ parseLine (renderItem it) = it) :
    adviceItems (reconstruct items) = items := by
  cases items with
  | nil => rfl
  | cons it0 rest =>
    have hRs : ∀ R ∈ (it0 :: rest).map renderItem,
        '\n' ∉ R ∧ R ≠ [] ∧ jsTrim R = R ∧ stripBullet R = R := by
      intro R hR
      obtain ⟨it, hit, rfl⟩ := List.mem_map.mp hR
      obtain ⟨a, b, c, d, _⟩ := key it hit
      exact ⟨a, b, c, d⟩
    have hjoin_ne : reconstruct (it0 :: rest) ≠ [] := by
      rw [reconstruct]
      have hR0 : renderItem it0 ≠ [] := (key it0 (by simp)).2.1
      cases rest with
      | nil => simpa [joinNl] using hR0
      | cons it1 rest2 => simp [joinNl]
    rw [adviceItems, if_neg hjoin_ne]
    have hsplit : splitOnNl (reconstruct (it0 :: rest)) = (it0 :: rest).map renderItem := by
      rw [reconstruct]
      exact splitOnNl_joinNl _ (by simp) (fun R hR => (hRs R hR).1)
    rw [nonEmptyTrimmedLines, hsplit]
    have hmapTrim : ((it0 :: rest).map renderItem).map jsTrim = (it0 :: rest).map renderItem := by
      have h0 : ∀ R ∈ (it0 :: rest).map renderItem, jsTrim R = id R :=
        fun R hR => (hRs R hR).2.2.1
      rw [List.map_congr_left h0, List.map_id]
    rw [hmapTrim]
    have hfilter : ((it0 :: rest).map renderItem).filter (fun l => l ≠ []) =
        (it0 :: rest).map renderItem :=
      List.filter_eq_self.mpr (fun R hR => by simpa using (hRs R hR).2.1)
    rw [hfilter]
    have hmapStrip : ((it0 :: rest).map renderItem).map stripBullet =
        (it0 :: rest).map renderItem := by
      have h0 : ∀ R ∈ (it0 :: rest).map renderItem, stripBullet R = id R :=
        fun R hR => (hRs R hR).2.2.2
      rw [List.map_congr_left h0, List.map_id]
    rw [hmapStrip, List.map_map]
    have h0 : ∀ it ∈ it0 :: rest, (parseLine ∘ renderItem) it = id it :=
      fun it hit => (key it hit).2.2.2.2
    rw [List.map_congr_left h0, List.map_id]

/-- Claim C3 (amended): a line matched pattern (a) or (b) exactly when its
parsed label is nonempty, and for any input all of whose parsed labels are
nonempty, colon-free, and start with a character that is not whitespace and
not a bullet character (`goodLabel`), re-parsing the reconstructed text
yields the same item sequence.  Without the extra label conditions the
round trip fails — see the counterexample, whose line matches pattern (a). -/
theorem adviceItems_reconstruct :
    (∀ line, matchedAB line = true ↔ (parseLine line).label ≠ []) ∧
    (∀ input, (∀ it ∈ adviceItems input, goodLabel it.label = true) →
      adviceItems (reconstruct (adviceItems input)) = adviceItems input) := by
  refine ⟨matchedAB_iff_label_ne, ?_⟩
  intro input H
  by_cases hin : input = []
  · subst hin
    rfl
  · have hAI : adviceItems input = ((nonEmptyTrimmedLines input).map stripBullet).map parseLine := by
      rw [adviceItems, if_neg hin]
    have key : ∀ it ∈ adviceItems input,
        ('\n' ∉ renderItem it) ∧ renderItem it ≠ [] ∧ jsTrim (renderItem it) = renderItem it ∧
        stripBullet (renderItem it) = renderItem it ∧ parseLine (renderItem it) = it := by
      intro it hit
      have hgl := H it hit
      rw [hAI] at hit
      obtain ⟨x, hx, hpx⟩ := List.mem_map.mp hit
      obtain ⟨hnl, hprops⟩ := processed_line_props hx
      have hlne : it.label ≠ [] := by
        cases hll : it.label with
        | nil => rw [hll] at hgl; exact absurd hgl (by simp [goodLabel])
        | cons a b => simp
      have hxne : x ≠ [] := by
        intro h0
        rw [h0] at hpx
        have hemp : it.label = [] := by rw [← hpx]; rfl
        exact hlne hemp
      obtain ⟨_, hg⟩ := hprops hxne
      obtain ⟨l, t⟩ := it
      have hp : parseLine x = ⟨l, t⟩ := hpx
      obtain ⟨htne, hth, htl, hlsub, htsub⟩ := parseLine_matched_props hg hp hlne
      obtain ⟨c0, l0, rfl⟩ : ∃ c0 l0, l = c0 :: l0 := by
        cases l with
        | nil => exact absurd rfl hlne
        | cons a b => exact ⟨a, b, rfl⟩
      have hglc := hgl
      rw [goodLabel] at hglc
      simp only [Bool.and_eq_true, Bool.not_eq_true', decide_eq_false_iff_not] at hglc
      obtain ⟨⟨⟨h1, h2⟩, h3⟩, _⟩ := hglc
      refine ⟨?_, by simp [renderItem], ?_, ?_, ?_⟩
      · rw [renderItem]
        intro hm
        simp only [List.mem_append, List.mem_cons] at hm
        rcases hm with hm | hm | hm | hm
        · exact hnl (hlsub _ (List.mem_cons.mpr hm))
        · exact absurd hm (by decide)
        · exact absurd hm (by decide)
        · exact hnl (htsub _ hm)
      · apply jsTrim_eq_self
        · intro c hcx
          rw [renderItem, List.cons_append, List.head?_cons] at hcx
          rw [← Option.some.inj hcx]
          exact h1
        · intro c hcx
          rw [renderItem, List.getLast?_append, getLast?_cons_of_ne_nil (by simp),
            getLast?_cons_of_ne_nil htne] at hcx
          obtain ⟨ct, hct⟩ :=
            Option.isSome_iff_exists.mp (List.getLast?_isSome.mpr htne)
          rw [hct] at hcx
          exact htl c (by rw [hct, Option.some.inj hcx])
      · rw [renderItem, List.cons_append, stripBullet, if_neg (by tauto)]
      · rw [renderItem]
        exact parseLine_render hgl htne hth
    exact adviceItems_of_good_items (adviceItems input) key

/-- Witness for C3 on a two-line input with good labels. -/
theorem adviceItems_reconstruct_witness :
    (∀ it ∈ adviceItems c3GoodInput, goodLabel it.label = true) ∧
    adviceItems (reconstruct (adviceItems c3GoodInput)) = adviceItems c3GoodInput :=
  ⟨by decide, adviceItems_reconstruct.2 c3GoodInput (by decide)⟩

/-- Counterexample to C3 as stated: in `"-**A:B**: c"` the single processed
line matches pattern (a) with label `"A:B"`, but re-parsing the
reconstruction `"A:B: c"` splits at the first colon into label `"A"`, a
different item sequence. -/
theorem adviceItems_reconstruct_counterexample :
    (∀ x ∈ (nonEmptyTrimmedLines c3BadInput).map stripBullet, matchedAB x = true) ∧
    adviceItems (reconstruct (adviceItems c3BadInput)) ≠ adviceItems c3BadInput := by
  refine ⟨by decide, by decide⟩

end WeatherApp
